import Mathlib

/-!
# Verification of `pylearn2/datasets/timit.py`

A shallow embedding of the constructor `TIMIT.__init__` of
`code/pylearn2/datasets/timit.py` and proofs about its behaviour.

Conventions of the embedding:
* numpy arrays become Lean `List`s; raw acoustic samples are `Int` values
  (their numeric content is never inspected by the constructor, only moved),
  label and boundary streams are `Nat` values;
* fallible operations (out-of-bounds indexing, the frame segmentation of
  `segment_axis`) return `Except String`;
* the loading stage (lines 56-89 of the source) is external I/O: the loaded
  tables are taken as an input record `TimitInputs`;
* `segment_axis` is imported by the source from
  `research.code.scripts.segmentaxis`, a file that is not among the sources
  here, so it is modelled from the specification (see its doc comment).
-/

namespace Timit

/-- Numpy slice assignment `xs[s:e] = v` on a one-dimensional array:
positions `i` with `s ≤ i < e` (clipped to the array length) receive `v`,
all others keep their value. -/
def writeInterval (xs : List Nat) (s e v : Nat) : List Nat :=
  (List.range xs.length).map (fun i => if s ≤ i ∧ i < e then v else xs.getD i 0)

/-- Lines 102-106 (and 112-116) of the source: start from
`numpy.zeros_like(sequence)` and, for each annotation row
`(start, end, unit)`, perform `encoded[start:end] = unit + 1`. -/
def encodeSequence (L : Nat) (anns : List (Nat × Nat × Nat)) : List Nat :=
  anns.foldl (fun acc a => writeInterval acc a.1 a.2.1 (a.2.2 + 1))
    (List.replicate L 0)

/-- Lines 119-126 of the source: start from a zero array of the same length
and, for each `j` in `range(len - 1)`, set position `j` to `1` when the
encoded labels at `j` and `j+1` differ. -/
def endMarkers (xs : List Nat) : List Nat :=
  (List.range (xs.length - 1)).foldl
    (fun acc j => if xs.getD j 0 ≠ xs.getD (j + 1) 0 then acc.set j 1 else acc)
    (List.replicate xs.length 0)

/-- Lines 128-129 of the source: `end_phoneme[-1] = 1`.  On an empty numpy
array indexing with `-1` raises `IndexError`. -/
def setLastOne (xs : List Nat) : Except String (List Nat) :=
  if xs.length = 0 then .error "IndexError: index -1 is out of bounds"
  else .ok (xs.set (xs.length - 1) 1)

/-- Number of full frames of `length` samples, consecutive frames advancing
by `length - overlap` samples, inside a signal of `L` samples. -/
def numFrames (L : Nat) (length overlap : Int) : Nat :=
  if L < length.toNat then 0
  else (L - length.toNat) / (length - overlap).toNat + 1

/-- Modelled from the spec: the source imports `segment_axis` from
`research.code.scripts.segmentaxis`, which is not among the sources here.
Per the spec (sections 3 and 4.3): produce the ordered list of frames of
exactly `length` samples starting at offsets `0, step, 2*step, ...` with
`step = length - overlap`, stopping before a frame would run past the end
(an incomplete trailing window is dropped); `length ≤ 0`, `overlap < 0`
and `overlap ≥ length` are configuration errors. -/
def segment_axis {α : Type} (a : List α) (length overlap : Int) :
    Except String (List (List α)) :=
  if length ≤ 0 ∨ overlap < 0 ∨ overlap ≥ length then
    .error "segment_axis: invalid frame length and overlap configuration"
  else
    .ok ((List.range (numFrames a.length length overlap)).map
      (fun k => (a.drop (k * (length - overlap).toNat)).take length.toNat))

/-- Number of occurrences of `v` in `xs`. -/
def countOcc (xs : List Nat) (v : Nat) : Nat :=
  (xs.filter (fun x => x == v)).length

/-- `scipy.stats.mode` along one row: the most frequent value, and the
smallest such value when several are tied. -/
def listMode (xs : List Nat) : Nat :=
  xs.foldl (fun b v =>
    if countOcc xs b < countOcc xs v then v
    else if countOcc xs v = countOcc xs b ∧ v < b then v
    else b) (xs.headD 0)

/-- `.max(axis=1)` along one row (rows here are nonempty frames). -/
def npMax (xs : List Nat) : Nat := xs.foldl max 0

/-- Numpy integer indexing `xs[i]`: `IndexError` when out of bounds. -/
def getE {α : Type} (xs : List α) (i : Nat) : Except String α :=
  match xs[i]? with
  | some v => .ok v
  | none => .error "IndexError: index out of bounds"

/-- The tables loaded from disk at lines 79-89 of the source (the loading
itself is external I/O, outside the modelled core). -/
structure TimitInputs where
  speaker_info_list : List (List Int)
  speaker_id_list : List String
  speaker_features_list : List String
  words_list : List String
  phonemes_list : List String
  raw_wav : List (List Int)
  phonemes : List (Nat × Nat × Nat)
  sequences_to_phonemes : List (Nat × Nat)
  words : List (Nat × Nat × Nat)
  sequences_to_words : List (Nat × Nat)
  speaker_id : List Nat
  deriving DecidableEq

/-- The values computed by one iteration of the per-sequence loop
(lines 97-172 of the source).  Only `segmented_sequence` is used by the
rest of the loop body; the other fields are locals that die with the
iteration. -/
structure SeqResult where
  segmented_sequence : List (List Int)
  segmented_phonemes_agg : List Nat
  segmented_words_agg : List Nat
  end_phoneme_agg : List Nat
  end_word_agg : List Nat
  deriving DecidableEq

/-- One iteration of the per-sequence loop, lines 97-172 of the source, in
source order: phoneme table slice and densification, word table slice and
densification, the boundary loop, `end_phoneme[-1] = 1`, `end_word[-1] = 1`,
speaker lookup, segmentation of the raw sequence, segmentation plus
per-frame mode of both encoded label streams, segmentation plus per-frame
max of both boundary streams. -/
def processSequence (frame_length overlap : Int) (inp : TimitInputs)
    (i : Nat) (sequence : List Int) : Except String SeqResult := do
  let sp ← getE inp.sequences_to_phonemes i
  let phonemes_sequence := (inp.phonemes.drop sp.1).take (sp.2 - sp.1)
  let encoded_phonemes_sequence := encodeSequence sequence.length phonemes_sequence
  let sw ← getE inp.sequences_to_words i
  let words_sequence := (inp.words.drop sw.1).take (sw.2 - sw.1)
  let encoded_words_sequence := encodeSequence sequence.length words_sequence
  let end_phoneme := endMarkers encoded_phonemes_sequence
  let end_word := endMarkers encoded_words_sequence
  let end_phoneme ← setLastOne end_phoneme
  let end_word ← setLastOne end_word
  let speaker_id ← getE inp.speaker_id i
  let _speaker_info ← getE inp.speaker_info_list speaker_id
  let segmented_sequence ← segment_axis sequence frame_length overlap
  let segmented_encoded_phonemes ← segment_axis encoded_phonemes_sequence frame_length overlap
  let segmented_phonemes_agg := segmented_encoded_phonemes.map listMode
  let segmented_encoded_words ← segment_axis encoded_words_sequence frame_length overlap
  let segmented_words_agg := segmented_encoded_words.map listMode
  let seg_end_phoneme ← segment_axis end_phoneme frame_length overlap
  let end_phoneme_agg := seg_end_phoneme.map npMax
  let seg_end_word ← segment_axis end_word frame_length overlap
  let end_word_agg := seg_end_word.map npMax
  return ⟨segmented_sequence, segmented_phonemes_agg, segmented_words_agg,
          end_phoneme_agg, end_word_agg⟩

/-- State threaded through the per-sequence loop: the `visiting_order`
accumulator, the four accumulator lists created at lines 93-96 of the
source (only `segmented_sequences` is ever appended to, at line 174), and
the in-place replacement `self.raw_wav[i] = segmented_sequence` of
line 176, collected in sequence order. -/
structure LoopOut where
  visiting_order : List (Nat × Nat)
  segmented_sequences : List (List (List Int))
  segmented_phonemes : List (List Nat)
  segmented_words : List (List Nat)
  segmented_speaker_info : List (List Int)
  raw_wav : List (List (List Int))
  deriving DecidableEq

/-- The per-sequence loop of lines 97-179, starting at sequence index `i`.
For each sequence, after processing, lines 178-179 append `(i, j)` to
`visiting_order` for `j` in `xrange(0, segmented_sequence.shape[0] -
frames_per_example)` (empty when the bound is not positive). -/
def coreLoop (frame_length overlap : Int) (frames_per_example : Nat)
    (inp : TimitInputs) (i : Nat) :
    List (List Int) → Except String LoopOut
  | [] => .ok ⟨[], [], [], [], [], []⟩
  | sequence :: rest => do
    let r ← processSequence frame_length overlap inp i sequence
    let refs := (List.range (r.segmented_sequence.length - frames_per_example)).map
      (fun j => (i, j))
    let out ← coreLoop frame_length overlap frames_per_example inp (i + 1) rest
    return ⟨refs ++ out.visiting_order,
            r.segmented_sequence :: out.segmented_sequences,
            out.segmented_phonemes, out.segmented_words,
            out.segmented_speaker_info,
            r.segmented_sequence :: out.raw_wav⟩

/-- Everything assigned to `self` by the constructor before the data-specs
stage: configuration (lines 51-53), the loaded tables (lines 79-89), the
segmented `raw_wav` (line 176) and `visiting_order` (line 181). -/
structure CoreState where
  frame_length : Int
  overlap : Int
  frames_per_example : Nat
  speaker_info_list : List (List Int)
  speaker_id_list : List String
  speaker_features_list : List String
  words_list : List String
  phonemes_list : List String
  raw_wav : List (List (List Int))
  phonemes : List (Nat × Nat × Nat)
  sequences_to_phonemes : List (Nat × Nat)
  words : List (Nat × Nat × Nat)
  sequences_to_words : List (Nat × Nat)
  speaker_id : List Nat
  visiting_order : List (Nat × Nat)
  deriving DecidableEq

def whichSetValues : List String := ["train", "valid", "test"]

/-- Lines 46-49 of the source: validation of `which_set`. -/
def checkWhichSet (which_set : String) : Except String Unit :=
  if which_set ∈ whichSetValues then .ok ()
  else .error (which_set ++ " is not a recognized value. " ++
               "Valid values are [\x27train\x27, \x27valid\x27, \x27test\x27].")

/-- Lines 46-181 of the source: the `which_set` check, the per-sequence
loop and the assembly of the attributes assigned to `self` up to
`visiting_order`.  The `rng` parameter is in scope throughout `__init__`
but never read. -/
def coreTransform (which_set : String) (frame_length overlap : Int)
    (frames_per_example : Nat) (rng : Nat × Nat × Nat) (inp : TimitInputs) :
    Except String CoreState := do
  let _ ← checkWhichSet which_set
  let out ← coreLoop frame_length overlap frames_per_example inp 0 inp.raw_wav
  return ⟨frame_length, overlap, frames_per_example,
          inp.speaker_info_list, inp.speaker_id_list, inp.speaker_features_list,
          inp.words_list, inp.phonemes_list,
          out.raw_wav, inp.phonemes, inp.sequences_to_phonemes, inp.words,
          inp.sequences_to_words, inp.speaker_id, out.visiting_order⟩

/-- The names bound at module level of `timit.py`: the imports of
lines 12-19, the module dunder assignments of lines 4-9 and the class
`TIMIT` itself.  `VectorSpace` and `CompositeSpace` are not among them. -/
def moduleBindings : List String :=
  ["os", "cPickle", "numpy", "scipy", "serial", "resolve_iterator_class",
   "Dataset", "segment_axis",
   "__authors__", "__copyright__", "__credits__", "__license__",
   "__maintainer__", "__email__", "TIMIT"]

/-- Python name resolution at module scope: referencing a name that is not
bound raises `NameError`. -/
def lookupName (n : String) : Except String Unit :=
  if n ∈ moduleBindings then .ok ()
  else .error ("NameError: name \x27" ++ n ++ "\x27 is not defined")

/-- The value lines 184-190 would build: feature width, target width and
the two-component source schema. -/
structure DataSpecs where
  x_dim : Int
  x_source : String
  y_dim : Int
  y_source : String
  deriving DecidableEq

/-- Lines 183-190 of the source: `X_space = VectorSpace(...)` (line 184),
`y_space = VectorSpace(...)` (line 186), `space = CompositeSpace(...)`
(line 188).  Each constructor call first resolves its name at module
scope. -/
def dataSpecsStage (frame_length : Int) (frames_per_example : Nat) :
    Except String DataSpecs := do
  let _ ← lookupName "VectorSpace"
  let _ ← lookupName "VectorSpace"
  let _ ← lookupName "CompositeSpace"
  return ⟨frame_length * (frames_per_example : Int), "features",
          frame_length, "targets"⟩

/-- A fully constructed object: the core attributes plus `data_specs`. -/
structure TIMITState where
  core : CoreState
  data_specs : DataSpecs
  deriving DecidableEq

/-- The whole constructor `TIMIT.__init__`: the core transform of
lines 46-181 followed by the data-specs stage of lines 183-190. -/
def TIMIT_init (which_set : String) (frame_length overlap : Int)
    (frames_per_example : Nat) (rng : Nat × Nat × Nat) (inp : TimitInputs) :
    Except String TIMITState := do
  let core ← coreTransform which_set frame_length overlap frames_per_example rng inp
  let specs ← dataSpecsStage frame_length frames_per_example
  return ⟨core, specs⟩

/-- The default `rng` argument `_default_seed = (17, 2, 946)` of the
source (line 26). -/
def default_seed : Nat × Nat × Nat := (17, 2, 946)

/-- `true` exactly on successful results. -/
def isOkB {ε α : Type} : Except ε α → Bool
  | .ok _ => true
  | .error _ => false

/-- Value of a successful result, `d` on an error. -/
def okD {ε α : Type} (r : Except ε α) (d : α) : α :=
  match r with
  | .ok v => v
  | .error _ => d

/-- The training-window reference list described by the spec, starting at
sequence index `i`: sequence-major, offset-ascending, offsets
`[0, N - frames_per_example)` for a sequence with `N` frames. -/
def expectedVOFrom (i : Nat) (counts : List Nat) (fpe : Nat) :
    List (Nat × Nat) :=
  match counts with
  | [] => []
  | n :: rest =>
    ((List.range (n - fpe)).map (fun j => (i, j))) ++ expectedVOFrom (i + 1) rest fpe

/-- The training-window reference list described by the spec, over the
per-sequence frame counts. -/
def expectedVisitingOrder (counts : List Nat) (fpe : Nat) : List (Nat × Nat) :=
  expectedVOFrom 0 counts fpe

/-- Whether annotation `a = (start, end, unit)` covers sample index `k`. -/
def coversB (a : Nat × Nat × Nat) (k : Nat) : Bool :=
  decide (a.1 ≤ k) && decide (k < a.2.1)

/-- The last annotation in iteration order covering sample `k`, if any. -/
def lastCovering (anns : List (Nat × Nat × Nat)) (k : Nat) :
    Option (Nat × Nat × Nat) :=
  (anns.filter (fun a => coversB a k)).getLast?

/-- The frame configuration accepted by `segment_axis`. -/
def ValidFrameConfig (frame_length overlap : Int) : Prop :=
  0 < frame_length ∧ 0 ≤ overlap ∧ overlap < frame_length

/-- Input tables aligned as the upstream data preparation guarantees:
one annotation-range row and one speaker id per sequence, speaker ids
inside the speaker table, and no empty sequence. -/
def WellFormedInputs (inp : TimitInputs) : Prop :=
  inp.raw_wav.length ≤ inp.sequences_to_phonemes.length ∧
  inp.raw_wav.length ≤ inp.sequences_to_words.length ∧
  inp.raw_wav.length ≤ inp.speaker_id.length ∧
  (∀ s ∈ inp.speaker_id, s < inp.speaker_info_list.length) ∧
  (∀ sq ∈ inp.raw_wav, sq ≠ [])

/-- Interpreting an optional covering annotation as a label value. -/
def coverValue (o : Option (Nat × Nat × Nat)) (d : Nat) : Nat :=
  match o with
  | some a => a.2.2 + 1
  | none => d

lemma getD_map_range {α : Type} (n k : Nat) (f : Nat → α) (d : α) (hk : k < n) :
    ((List.range n).map f).getD k d = f k := by
  rw [List.getD_eq_getElem?_getD, List.getElem?_map, List.getElem?_range hk]
  rfl

lemma mem_of_getLast?_eq {α : Type} {l : List α} {a : α}
    (h : l.getLast? = some a) : a ∈ l := by
  induction l with
  | nil => simp at h
  | cons x t ih =>
    cases t with
    | nil =>
      rw [List.getLast?_singleton] at h
      simp [Option.some_inj.mp h]
    | cons y u =>
      rw [List.getLast?_cons_cons] at h
      exact List.mem_cons_of_mem x (ih h)

lemma getLast?_cons_of_ne_nil {α : Type} (x : α) {t : List α} (h : t ≠ []) :
    (x :: t).getLast? = t.getLast? := by
  cases t with
  | nil => exact absurd rfl h
  | cons y u => exact List.getLast?_cons_cons

lemma writeInterval_length (xs : List Nat) (s e v : Nat) :
    (writeInterval xs s e v).length = xs.length := by
  simp [writeInterval]

lemma writeInterval_getD (xs : List Nat) (s e v k : Nat) (hk : k < xs.length) :
    (writeInterval xs s e v).getD k 0 =
      if s ≤ k ∧ k < e then v else xs.getD k 0 := by
  rw [writeInterval, getD_map_range _ _ _ _ hk]

lemma encodeFold_length (anns : List (Nat × Nat × Nat)) :
    ∀ acc : List Nat,
      (anns.foldl (fun ac a => writeInterval ac a.1 a.2.1 (a.2.2 + 1)) acc).length =
        acc.length := by
  induction anns with
  | nil => intro acc; rfl
  | cons a l ih =>
    intro acc
    rw [List.foldl_cons, ih, writeInterval_length]

lemma encodeSequence_length (L : Nat) (anns : List (Nat × Nat × Nat)) :
    (encodeSequence L anns).length = L := by
  rw [encodeSequence, encodeFold_length, List.length_replicate]

lemma coversB_eq_true {a : Nat × Nat × Nat} {k : Nat} :
    coversB a k = true ↔ a.1 ≤ k ∧ k < a.2.1 := by
  simp [coversB]

lemma encodeFold_getD (k : Nat) (anns : List (Nat × Nat × Nat)) :
    ∀ acc : List Nat, k < acc.length →
      (anns.foldl (fun ac a => writeInterval ac a.1 a.2.1 (a.2.2 + 1)) acc).getD k 0 =
        coverValue (lastCovering anns k) (acc.getD k 0) := by
  induction anns with
  | nil => intro acc _; rfl
  | cons a l ih =>
    intro acc hk
    rw [List.foldl_cons,
        ih _ (by rw [writeInterval_length]; exact hk)]
    by_cases hc : coversB a k = true
    · have hcov := coversB_eq_true.mp hc
      have hw : (writeInterval acc a.1 a.2.1 (a.2.2 + 1)).getD k 0 = a.2.2 + 1 := by
        rw [writeInterval_getD _ _ _ _ _ hk, if_pos hcov]
      cases hfl : l.filter (fun x => coversB x k) with
      | nil =>
        have h1 : lastCovering l k = none := by
          rw [lastCovering, hfl]; rfl
        have h2 : lastCovering (a :: l) k = some a := by
          unfold lastCovering
          simp only [List.filter_cons, hc, if_true, hfl, List.getLast?_singleton]
        rw [h1, h2, hw]
        rfl
      | cons b t =>
        have h2 : lastCovering (a :: l) k = lastCovering l k := by
          unfold lastCovering
          simp only [List.filter_cons, hc, if_true, hfl]
          exact getLast?_cons_of_ne_nil a (by simp)
        rw [h2]
        have : ∃ c, lastCovering l k = some c := by
          rw [lastCovering, hfl]
          exact ⟨(b :: t).getLast (by simp), List.getLast?_eq_getLast _ _⟩
        obtain ⟨c, hcs⟩ := this
        rw [hcs]
        rfl
    · have hncov : ¬(a.1 ≤ k ∧ k < a.2.1) := fun h => hc (coversB_eq_true.mpr h)
      have hcf : coversB a k = false := by
        cases hb : coversB a k with
        | false => rfl
        | true => exact absurd hb hc
      have hw : (writeInterval acc a.1 a.2.1 (a.2.2 + 1)).getD k 0 = acc.getD k 0 := by
        rw [writeInterval_getD _ _ _ _ _ hk, if_neg hncov]
      have h2 : lastCovering (a :: l) k = lastCovering l k := by
        unfold lastCovering
        simp only [List.filter_cons, hcf, Bool.false_eq_true, if_false]
      rw [h2, hw]

lemma encodeSequence_getD (L : Nat) (anns : List (Nat × Nat × Nat)) (k : Nat)
    (hk : k < L) :
    (encodeSequence L anns).getD k 0 = coverValue (lastCovering anns k) 0 := by
  rw [encodeSequence, encodeFold_getD k anns _ (by rw [List.length_replicate]; exact hk)]
  congr 1
  rw [List.getD_eq_getElem?_getD, List.getElem?_replicate, if_pos hk]
  rfl

/-- One step of the boundary loop of lines 122-126, for one label stream. -/
def boundaryStep (xs : List Nat) (acc : List Nat) (j : Nat) : List Nat :=
  if xs.getD j 0 ≠ xs.getD (j + 1) 0 then acc.set j 1 else acc

lemma endMarkers_eq_foldl (xs : List Nat) :
    endMarkers xs =
      (List.range (xs.length - 1)).foldl (boundaryStep xs)
        (List.replicate xs.length 0) := rfl

lemma boundaryFold_length (xs : List Nat) (l : List Nat) :
    ∀ acc : List Nat, (l.foldl (boundaryStep xs) acc).length = acc.length := by
  induction l with
  | nil => intro acc; rfl
  | cons j t ih =>
    intro acc
    rw [List.foldl_cons, ih]
    unfold boundaryStep
    by_cases h : xs.getD j 0 ≠ xs.getD (j + 1) 0
    · rw [if_pos h, List.length_set]
    · rw [if_neg h]

lemma endMarkers_length (xs : List Nat) : (endMarkers xs).length = xs.length := by
  rw [endMarkers_eq_foldl, boundaryFold_length, List.length_replicate]

lemma getD_set_self (l : List Nat) (m : Nat) (v : Nat) (h : m < l.length) :
    (l.set m v).getD m 0 = v := by
  rw [List.getD_eq_getElem?_getD, List.getElem?_set, if_pos rfl, if_pos h]
  rfl

lemma getD_set_ne (l : List Nat) (m k : Nat) (v : Nat) (h : m ≠ k) :
    (l.set m v).getD k 0 = l.getD k 0 := by
  rw [List.getD_eq_getElem?_getD, List.getElem?_set, if_neg h,
      ← List.getD_eq_getElem?_getD]

lemma boundaryStep_getD_self (xs acc : List Nat) (m : Nat) (h : m < acc.length) :
    (boundaryStep xs acc m).getD m 0 =
      if xs.getD m 0 ≠ xs.getD (m + 1) 0 then 1 else acc.getD m 0 := by
  rw [boundaryStep]
  by_cases hd : xs.getD m 0 ≠ xs.getD (m + 1) 0
  · rw [if_pos hd, if_pos hd, getD_set_self _ _ _ h]
  · rw [if_neg hd, if_neg hd]

lemma boundaryStep_getD_of_ne (xs acc : List Nat) (m k : Nat) (h : m ≠ k) :
    (boundaryStep xs acc m).getD k 0 = acc.getD k 0 := by
  rw [boundaryStep]
  by_cases hd : xs.getD m 0 ≠ xs.getD (m + 1) 0
  · rw [if_pos hd, getD_set_ne _ _ _ _ h]
  · rw [if_neg hd]

lemma boundaryFold_range_getD (xs : List Nat) (k : Nat) :
    ∀ (m : Nat) (acc : List Nat), k < acc.length →
      ((List.range m).foldl (boundaryStep xs) acc).getD k 0 =
        if k < m ∧ xs.getD k 0 ≠ xs.getD (k + 1) 0 then 1 else acc.getD k 0 := by
  intro m
  induction m with
  | zero =>
    intro acc _
    simp
  | succ m ih =>
    intro acc hk
    rw [List.range_succ, List.foldl_append, List.foldl_cons, List.foldl_nil]
    have hlen : ((List.range m).foldl (boundaryStep xs) acc).length = acc.length :=
      boundaryFold_length xs _ acc
    by_cases hkm : k = m
    · subst hkm
      rw [boundaryStep_getD_self _ _ _ (by rw [hlen]; exact hk)]
      by_cases hd : xs.getD k 0 ≠ xs.getD (k + 1) 0
      · rw [if_pos hd, if_pos ⟨Nat.lt_succ_self k, hd⟩]
      · rw [if_neg hd, ih _ hk, if_neg (fun h => hd h.2), if_neg (fun h => hd h.2)]
    · have hmk : m ≠ k := fun h => hkm h.symm
      rw [boundaryStep_getD_of_ne _ _ _ _ hmk, ih _ hk]
      have hiff : k < m + 1 ∧ xs.getD k 0 ≠ xs.getD (k + 1) 0 ↔
          k < m ∧ xs.getD k 0 ≠ xs.getD (k + 1) 0 := by
        constructor
        · rintro ⟨h1, h2⟩
          exact ⟨by omega, h2⟩
        · rintro ⟨h1, h2⟩
          exact ⟨by omega, h2⟩
      rw [if_congr hiff rfl rfl]

lemma endMarkers_getD (xs : List Nat) (k : Nat) (hk : k < xs.length) :
    (endMarkers xs).getD k 0 =
      if k < xs.length - 1 ∧ xs.getD k 0 ≠ xs.getD (k + 1) 0 then 1 else 0 := by
  rw [endMarkers_eq_foldl,
      boundaryFold_range_getD xs k _ _ (by rw [List.length_replicate]; exact hk)]
  congr 1
  rw [List.getD_eq_getElem?_getD, List.getElem?_replicate, if_pos hk]
  rfl

lemma setLastOne_ok (xs : List Nat) (h : xs ≠ []) :
    setLastOne xs = .ok (xs.set (xs.length - 1) 1) := by
  rw [setLastOne, if_neg]
  simpa [List.length_eq_zero] using h

lemma segment_axis_ok {α : Type} (a : List α) (fl ov : Int)
    (hc : ValidFrameConfig fl ov) :
    segment_axis a fl ov =
      .ok ((List.range (numFrames a.length fl ov)).map
        (fun k => (a.drop (k * (fl - ov).toNat)).take fl.toNat)) := by
  obtain ⟨h1, h2, h3⟩ := hc
  rw [segment_axis, if_neg]
  push_neg
  exact ⟨h1, h2, h3⟩

lemma segment_axis_config_error {α : Type} (a : List α) (fl ov : Int)
    (hbad : fl ≤ 0 ∨ ov < 0 ∨ fl ≤ ov) :
    segment_axis a fl ov =
      .error "segment_axis: invalid frame length and overlap configuration" := by
  rw [segment_axis, if_pos]
  rcases hbad with h | h | h
  · exact Or.inl h
  · exact Or.inr (Or.inl h)
  · exact Or.inr (Or.inr h)

lemma numFrames_pos (L : Nat) (fl ov : Int) (h : fl.toNat ≤ L) :
    0 < numFrames L fl ov := by
  rw [numFrames, if_neg (by omega)]
  exact Nat.succ_pos _

lemma foldl_max_le (c : Nat) :
    ∀ (xs : List Nat) (i : Nat), i ≤ c → (∀ v ∈ xs, v ≤ c) →
      xs.foldl max i ≤ c := by
  intro xs
  induction xs with
  | nil => intro i hi _; exact hi
  | cons a t ih =>
    intro i hi hall
    rw [List.foldl_cons]
    exact ih _ (max_le hi (hall a (List.mem_cons_self a t)))
      (fun v hv => hall v (List.mem_cons_of_mem a hv))

lemma init_le_foldl_max :
    ∀ (xs : List Nat) (i : Nat), i ≤ xs.foldl max i := by
  intro xs
  induction xs with
  | nil => intro i; exact le_refl i
  | cons a t ih =>
    intro i
    rw [List.foldl_cons]
    exact le_trans (le_max_left i a) (ih (max i a))

lemma le_foldl_max_of_mem :
    ∀ (xs : List Nat) (i v : Nat), v ∈ xs → v ≤ xs.foldl max i := by
  intro xs
  induction xs with
  | nil => intro i v hv; exact absurd hv (List.not_mem_nil v)
  | cons a t ih =>
    intro i v hv
    rw [List.foldl_cons]
    rcases List.mem_cons.mp hv with rfl | hvt
    · exact le_trans (le_max_right i v) (init_le_foldl_max t (max i v))
    · exact ih _ v hvt

lemma npMax_eq_one (xs : List Nat) (hmem : (1 : Nat) ∈ xs)
    (hle : ∀ v ∈ xs, v ≤ 1) : npMax xs = 1 := by
  rw [npMax]
  exact le_antisymm (foldl_max_le 1 xs 0 (by omega) hle)
    (le_foldl_max_of_mem xs 0 1 hmem)

/-- C2: for a sequence of length `L` and interval annotations with
`start ≤ end ≤ L`, the densified label array built at lines 102-106
(and 112-116) has length `L`; at every sample covered by some annotation
its value is `unit_id + 1` of the covering annotation that comes last in
iteration order (last write wins on overlaps); at every uncovered sample
it is `0`. -/
theorem labelDensification_correct (L : Nat) (anns : List (Nat × Nat × Nat))
    (hv : ∀ a ∈ anns, a.1 ≤ a.2.1 ∧ a.2.1 ≤ L) :
    (encodeSequence L anns).length = L ∧
    (∀ k, k < L →
      ((∃ a ∈ anns, a.1 ≤ k ∧ k < a.2.1) →
        ∃ a, lastCovering anns k = some a ∧ a ∈ anns ∧ a.1 ≤ k ∧ k < a.2.1 ∧
          (encodeSequence L anns).getD k 0 = a.2.2 + 1) ∧
      ((∀ a ∈ anns, ¬(a.1 ≤ k ∧ k < a.2.1)) →
        (encodeSequence L anns).getD k 0 = 0)) := by
  refine ⟨encodeSequence_length L anns, fun k hk => ⟨?_, ?_⟩⟩
  · rintro ⟨a, ha, hcov⟩
    have hne : anns.filter (fun x => coversB x k) ≠ [] := by
      intro hnil
      have := List.filter_eq_nil_iff.mp hnil a ha
      exact this (coversB_eq_true.mpr hcov)
    obtain ⟨c, hc⟩ := Option.isSome_iff_exists.mp (List.getLast?_isSome.mpr hne)
    have hcmem : c ∈ anns.filter (fun x => coversB x k) := mem_of_getLast?_eq hc
    obtain ⟨hcanns, hccov⟩ := List.mem_filter.mp hcmem
    refine ⟨c, hc, hcanns, (coversB_eq_true.mp hccov).1, (coversB_eq_true.mp hccov).2, ?_⟩
    rw [encodeSequence_getD L anns k hk, lastCovering, hc]
    rfl
  · intro hnone
    have hnil : anns.filter (fun x => coversB x k) = [] := by
      rw [List.filter_eq_nil_iff]
      intro a ha hcb
      exact hnone a ha (coversB_eq_true.mp hcb)
    rw [encodeSequence_getD L anns k hk, lastCovering, hnil]
    rfl

/-- Witness for C2 at `L = 5` with two overlapping annotations. -/
theorem labelDensification_correct_witness :
    (∀ a ∈ [((1 : Nat), (3 : Nat), (0 : Nat)), (2, 4, 7)], a.1 ≤ a.2.1 ∧ a.2.1 ≤ 5) ∧
    ((encodeSequence 5 [(1, 3, 0), (2, 4, 7)]).length = 5 ∧
    (∀ k, k < 5 →
      ((∃ a ∈ [((1 : Nat), (3 : Nat), (0 : Nat)), (2, 4, 7)], a.1 ≤ k ∧ k < a.2.1) →
        ∃ a, lastCovering [(1, 3, 0), (2, 4, 7)] k = some a ∧
          a ∈ [((1 : Nat), (3 : Nat), (0 : Nat)), (2, 4, 7)] ∧ a.1 ≤ k ∧ k < a.2.1 ∧
          (encodeSequence 5 [(1, 3, 0), (2, 4, 7)]).getD k 0 = a.2.2 + 1) ∧
      ((∀ a ∈ [((1 : Nat), (3 : Nat), (0 : Nat)), (2, 4, 7)], ¬(a.1 ≤ k ∧ k < a.2.1)) →
        (encodeSequence 5 [(1, 3, 0), (2, 4, 7)]).getD k 0 = 0))) :=
  ⟨by decide, labelDensification_correct 5 [(1, 3, 0), (2, 4, 7)] (by decide)⟩

/-- C3: boundary extraction (lines 119-129) on a densified label array of
length `L ≥ 1` yields an array of length `L` with a `1` exactly at the
positions `j ≤ L - 2` where the label changes between `j` and `j + 1`,
and an unconditional `1` at position `L - 1`. -/
theorem boundaryExtraction_correct (xs : List Nat) (h : 1 ≤ xs.length) :
    ∃ b, setLastOne (endMarkers xs) = Except.ok b ∧
      b.length = xs.length ∧
      (∀ j, j + 1 < xs.length →
        b.getD j 0 = if xs.getD j 0 ≠ xs.getD (j + 1) 0 then 1 else 0) ∧
      b.getD (xs.length - 1) 0 = 1 := by
  have hlen := endMarkers_length xs
  have hne : endMarkers xs ≠ [] := by
    intro hnil
    rw [hnil] at hlen
    simp at hlen
    omega
  refine ⟨(endMarkers xs).set ((endMarkers xs).length - 1) 1,
    setLastOne_ok _ hne, ?_, ?_, ?_⟩
  · rw [List.length_set, hlen]
  · intro j hj
    rw [hlen, getD_set_ne _ _ _ _ (by omega),
        endMarkers_getD xs j (by omega)]
    by_cases hd : xs.getD j 0 ≠ xs.getD (j + 1) 0
    · rw [if_pos ⟨by omega, hd⟩, if_pos hd]
    · rw [if_neg (fun hh => hd hh.2), if_neg hd]
  · rw [hlen, getD_set_self _ _ _ (by omega)]

lemma boundaryFold_mem_le_one (xs : List Nat) :
    ∀ (l : List Nat) (acc : List Nat), (∀ v ∈ acc, v ≤ 1) →
      ∀ v ∈ l.foldl (boundaryStep xs) acc, v ≤ 1 := by
  intro l
  induction l with
  | nil => intro acc h; exact h
  | cons j t ih =>
    intro acc h
    rw [List.foldl_cons]
    apply ih
    intro v hv
    rw [boundaryStep] at hv
    by_cases hd : xs.getD j 0 ≠ xs.getD (j + 1) 0
    · rw [if_pos hd] at hv
      rcases List.mem_or_eq_of_mem_set hv with h1 | h1
      · exact h v h1
      · omega
    · rw [if_neg hd] at hv
      exact h v hv

lemma endMarkers_mem_le_one (xs : List Nat) : ∀ v ∈ endMarkers xs, v ≤ 1 := by
  rw [endMarkers_eq_foldl]
  apply boundaryFold_mem_le_one
  intro v hv
  have := List.eq_of_mem_replicate hv
  omega

/-- C6 (amended): the last element of the per-sample boundary array is
always `1` (for a nonempty sequence); the last element of the
max-aggregated boundary frame array is `1` whenever the frames tile the
sequence exactly, i.e. `frame_length ≤ L` and `step ∣ L − frame_length` —
otherwise the forced terminal `1` can fall into the dropped trailing
window (see the counterexample). -/
theorem forcedTerminalBoundary_amended (xs : List Nat) (fl ov : Int)
    (hne : xs ≠ [])
    (hc : ValidFrameConfig fl ov)
    (hfl : fl.toNat ≤ xs.length)
    (hdiv : (xs.length - fl.toNat) % (fl - ov).toNat = 0) :
    ∃ b frames, setLastOne (endMarkers xs) = Except.ok b ∧
      b.getD (b.length - 1) 0 = 1 ∧
      segment_axis b fl ov = Except.ok frames ∧
      frames.length = numFrames xs.length fl ov ∧
      0 < frames.length ∧
      (frames.map npMax).getD ((frames.map npMax).length - 1) 0 = 1 := by
  obtain ⟨hfl_pos, hov_nonneg, hov_lt⟩ := hc
  have hL : 1 ≤ xs.length := by
    cases xs with
    | nil => exact absurd rfl hne
    | cons a t => exact Nat.succ_le_succ (Nat.zero_le _)
  have hem_len := endMarkers_length xs
  have hem_ne : endMarkers xs ≠ [] := by
    intro hnil
    rw [hnil] at hem_len
    simp at hem_len
    omega
  set b := (endMarkers xs).set ((endMarkers xs).length - 1) 1 with hbdef
  have hblen : b.length = xs.length := by
    rw [hbdef, List.length_set, hem_len]
  have hblast : b.getD (xs.length - 1) 0 = 1 := by
    rw [hbdef, hem_len, getD_set_self _ _ _ (by omega)]
  have hble : ∀ v ∈ b, v ≤ 1 := by
    intro v hv
    rcases List.mem_or_eq_of_mem_set hv with h1 | h1
    · exact endMarkers_mem_le_one xs v h1
    · omega
  have hflN : 1 ≤ fl.toNat := by omega
  have hstep : 1 ≤ (fl - ov).toNat := by omega
  set N := numFrames xs.length fl ov with hNdef
  have hN : N = (xs.length - fl.toNat) / (fl - ov).toNat + 1 := by
    rw [hNdef, numFrames, if_neg (by omega)]
  have hNs : (N - 1) * (fl - ov).toNat = xs.length - fl.toNat := by
    rw [hN]
    simpa using Nat.div_mul_cancel (Nat.dvd_of_mod_eq_zero hdiv)
  refine ⟨b, (List.range N).map
      (fun k => (b.drop (k * (fl - ov).toNat)).take fl.toNat),
    setLastOne_ok _ hem_ne, by rw [hblen]; exact hblast, ?_, ?_, ?_, ?_⟩
  · rw [segment_axis_ok b fl ov ⟨hfl_pos, hov_nonneg, hov_lt⟩, hblen]
  · rw [List.length_map, List.length_range]
  · rw [List.length_map, List.length_range, hN]
    exact Nat.succ_pos _
  · have hNpos : 0 < N := by rw [hN]; exact Nat.succ_pos _
    rw [List.map_map, List.length_map, List.length_range,
        getD_map_range N (N - 1) _ _ (by omega)]
    have hframe : ((b.drop ((N - 1) * (fl - ov).toNat)).take fl.toNat)[fl.toNat - 1]? =
        some 1 := by
      rw [List.getElem?_take, if_pos (by omega), List.getElem?_drop, hNs]
      have hidx : xs.length - fl.toNat + (fl.toNat - 1) = xs.length - 1 := by omega
      rw [hidx]
      have hlt : xs.length - 1 < b.length := by omega
      rw [List.getElem?_eq_getElem hlt]
      have : b[xs.length - 1] = 1 := by
        have := hblast
        rw [List.getD_eq_getElem?_getD, List.getElem?_eq_getElem hlt] at this
        exact this
      rw [this]
    obtain ⟨hlt1, heq1⟩ := List.getElem?_eq_some.mp hframe
    apply npMax_eq_one
    · show (1 : Nat) ∈ (b.drop ((N - 1) * (fl - ov).toNat)).take fl.toNat
      have hmem := List.getElem_mem hlt1
      rw [heq1] at hmem
      exact hmem
    · intro v hv
      exact hble v (List.drop_subset _ _ (List.take_subset _ _ hv))

/-- C6 counterexample: a 25-sample sequence with no annotations,
`frame_length = 20`, `overlap = 10`.  The per-sample boundary array ends
in the forced `1` (at index 24), but segmentation keeps a single frame of
the first 20 samples, so the max-aggregated boundary frame array is `[0]`
and its last element is `0`, not `1`. -/
theorem forcedTerminalBoundary_counterexample :
    (okD (setLastOne (endMarkers (List.replicate 25 0))) []).getD 24 0 = 1 ∧
    (okD (segment_axis (okD (setLastOne (endMarkers (List.replicate 25 0))) [])
        20 10) []).map npMax = [0] ∧
    ((okD (segment_axis (okD (setLastOne (endMarkers (List.replicate 25 0))) [])
          20 10) []).map npMax).getD
        (((okD (segment_axis (okD (setLastOne (endMarkers (List.replicate 25 0))) [])
          20 10) []).map npMax).length - 1) 0 ≠ 1 := by
  decide

/-- Witness for C6 (amended) at `xs = [0, 0]`, `frame_length = 2`,
`overlap = 1`: the frames tile the two samples exactly. -/
theorem forcedTerminalBoundary_amended_witness :
    ([0, 0] : List Nat) ≠ [] ∧ ValidFrameConfig 2 1 ∧
    (2 : Int).toNat ≤ ([0, 0] : List Nat).length ∧
    (([0, 0] : List Nat).length - (2 : Int).toNat) % ((2 : Int) - 1).toNat = 0 ∧
    (∃ b frames, setLastOne (endMarkers ([0, 0] : List Nat)) = Except.ok b ∧
      b.getD (b.length - 1) 0 = 1 ∧
      segment_axis b 2 1 = Except.ok frames ∧
      frames.length = numFrames ([0, 0] : List Nat).length 2 1 ∧
      0 < frames.length ∧
      (frames.map npMax).getD ((frames.map npMax).length - 1) 0 = 1) :=
  ⟨by decide, ⟨by decide, by decide, by decide⟩, by decide, by decide,
    forcedTerminalBoundary_amended [0, 0] 2 1 (by decide)
      ⟨by decide, by decide, by decide⟩ (by decide) (by decide)⟩

lemma exists_ok_of_isOkB {ε α : Type} (e : Except ε α) (h : isOkB e = true) :
    ∃ v, e = .ok v := by
  cases e with
  | ok v => exact ⟨v, rfl⟩
  | error err => simp [isOkB] at h

lemma endMarkers_encode_ne_nil (sequence : List Int)
    (hne : sequence ≠ []) (anns : List (Nat × Nat × Nat)) :
    endMarkers (encodeSequence sequence.length anns) ≠ [] := by
  intro hnil
  have hl := endMarkers_length (encodeSequence sequence.length anns)
  rw [hnil, encodeSequence_length] at hl
  exact hne (List.length_eq_zero.mp hl.symm)

lemma processSequence_ok (fl ov : Int) (inp : TimitInputs) (i : Nat)
    (sequence : List Int) (hc : ValidFrameConfig fl ov)
    (hsp : i < inp.sequences_to_phonemes.length)
    (hsw : i < inp.sequences_to_words.length)
    (hsid : i < inp.speaker_id.length)
    (hinfo : ∀ s ∈ inp.speaker_id, s < inp.speaker_info_list.length)
    (hne : sequence ≠ []) :
    ∃ r, processSequence fl ov inp i sequence = .ok r ∧
      r.segmented_sequence.length = numFrames sequence.length fl ov := by
  have h1 := List.getElem?_eq_getElem hsp
  have h2 := List.getElem?_eq_getElem hsw
  have h3 := List.getElem?_eq_getElem hsid
  have h4 := List.getElem?_eq_getElem (hinfo _ (List.getElem_mem hsid))
  have hset : ∀ anns : List (Nat × Nat × Nat),
      setLastOne (endMarkers (encodeSequence sequence.length anns)) =
        .ok ((endMarkers (encodeSequence sequence.length anns)).set
          ((endMarkers (encodeSequence sequence.length anns)).length - 1) 1) :=
    fun anns => setLastOne_ok _ (endMarkers_encode_ne_nil sequence hne anns)
  have hsegi : ∀ a : List Int, segment_axis a fl ov =
      .ok ((List.range (numFrames a.length fl ov)).map
        (fun k => (a.drop (k * (fl - ov).toNat)).take fl.toNat)) :=
    fun a => segment_axis_ok a fl ov hc
  have hsegn : ∀ a : List Nat, segment_axis a fl ov =
      .ok ((List.range (numFrames a.length fl ov)).map
        (fun k => (a.drop (k * (fl - ov).toNat)).take fl.toNat)) :=
    fun a => segment_axis_ok a fl ov hc
  have hex : isOkB (processSequence fl ov inp i sequence) = true := by
    simp only [processSequence, getE, h1, h2, h3, h4, hset, hsegi, hsegn,
      bind, Except.bind, pure, Except.pure, isOkB]
  obtain ⟨r, hr⟩ := exists_ok_of_isOkB _ hex
  refine ⟨r, hr, ?_⟩
  have hr2 := hr
  simp only [processSequence, getE, h1, h2, h3, h4, hset, hsegi, hsegn,
    bind, Except.bind, pure, Except.pure] at hr2
  have hr3 := Except.ok.inj hr2
  rw [← hr3]
  simp [List.length_map, List.length_range]

lemma processSequence_config_err (fl ov : Int) (inp : TimitInputs) (i : Nat)
    (sequence : List Int) (hbad : fl ≤ 0 ∨ ov < 0 ∨ fl ≤ ov)
    (hsp : i < inp.sequences_to_phonemes.length)
    (hsw : i < inp.sequences_to_words.length)
    (hsid : i < inp.speaker_id.length)
    (hinfo : ∀ s ∈ inp.speaker_id, s < inp.speaker_info_list.length)
    (hne : sequence ≠ []) :
    processSequence fl ov inp i sequence =
      .error "segment_axis: invalid frame length and overlap configuration" := by
  have h1 := List.getElem?_eq_getElem hsp
  have h2 := List.getElem?_eq_getElem hsw
  have h3 := List.getElem?_eq_getElem hsid
  have h4 := List.getElem?_eq_getElem (hinfo _ (List.getElem_mem hsid))
  have hset : ∀ anns : List (Nat × Nat × Nat),
      setLastOne (endMarkers (encodeSequence sequence.length anns)) =
        .ok ((endMarkers (encodeSequence sequence.length anns)).set
          ((endMarkers (encodeSequence sequence.length anns)).length - 1) 1) :=
    fun anns => setLastOne_ok _ (endMarkers_encode_ne_nil sequence hne anns)
  have hsegi : ∀ a : List Int, segment_axis a fl ov =
      .error "segment_axis: invalid frame length and overlap configuration" :=
    fun a => segment_axis_config_error a fl ov hbad
  simp only [processSequence, getE, h1, h2, h3, h4, hset, hsegi,
    bind, Except.bind, pure, Except.pure]

lemma coreLoop_ok (fl ov : Int) (fpe : Nat) (inp : TimitInputs)
    (hc : ValidFrameConfig fl ov)
    (hinfo : ∀ s ∈ inp.speaker_id, s < inp.speaker_info_list.length) :
    ∀ (seqs : List (List Int)) (i : Nat),
      i + seqs.length ≤ inp.sequences_to_phonemes.length →
      i + seqs.length ≤ inp.sequences_to_words.length →
      i + seqs.length ≤ inp.speaker_id.length →
      (∀ sq ∈ seqs, sq ≠ []) →
      ∃ out, coreLoop fl ov fpe inp i seqs = .ok out ∧
        out.visiting_order =
          expectedVOFrom i (seqs.map (fun s => numFrames s.length fl ov)) fpe := by
  intro seqs
  induction seqs with
  | nil =>
    intro i _ _ _ _
    exact ⟨⟨[], [], [], [], [], []⟩, rfl, rfl⟩
  | cons sq rest ih =>
    intro i h1 h2 h3 h4
    have hlen1 : i < inp.sequences_to_phonemes.length := by
      simp only [List.length_cons] at h1; omega
    have hlen2 : i < inp.sequences_to_words.length := by
      simp only [List.length_cons] at h2; omega
    have hlen3 : i < inp.speaker_id.length := by
      simp only [List.length_cons] at h3; omega
    obtain ⟨r, hr, hrl⟩ := processSequence_ok fl ov inp i sq hc hlen1 hlen2 hlen3
      hinfo (h4 sq (List.mem_cons_self sq rest))
    obtain ⟨out, hout, hvo⟩ := ih (i + 1)
      (by simp only [List.length_cons] at h1; omega)
      (by simp only [List.length_cons] at h2; omega)
      (by simp only [List.length_cons] at h3; omega)
      (fun s hs => h4 s (List.mem_cons_of_mem sq hs))
    refine ⟨⟨(List.range (r.segmented_sequence.length - fpe)).map (fun j => (i, j)) ++
        out.visiting_order,
        r.segmented_sequence :: out.segmented_sequences,
        out.segmented_phonemes, out.segmented_words, out.segmented_speaker_info,
        r.segmented_sequence :: out.raw_wav⟩, ?_, ?_⟩
    · simp only [coreLoop, hr, hout, bind, Except.bind, pure, Except.pure]
    · show (List.range (r.segmented_sequence.length - fpe)).map (fun j => (i, j)) ++
          out.visiting_order = _
      rw [hrl, hvo, List.map_cons, expectedVOFrom]

/-- C1 (amended): with a valid `which_set`, a valid frame configuration
and well-formed, nonempty sequences, the constructor completes the core
and `visiting_order` is exactly the concatenation, in sequence order, of
the references `(i, j)` for `j` in `[0, N_i - frames_per_example)`
(sequence-major, offset-ascending; a sequence with
`N_i < frames_per_example + 1` contributes nothing and raises no
error).  An empty sequence, by contrast, makes construction fail (see the
counterexample). -/
theorem trainingWindowIndex_correct (ws : String) (fl ov : Int) (fpe : Nat)
    (rng : Nat × Nat × Nat) (inp : TimitInputs)
    (hws : ws ∈ whichSetValues) (hc : ValidFrameConfig fl ov)
    (hwf : WellFormedInputs inp) :
    ∃ st, coreTransform ws fl ov fpe rng inp = .ok st ∧
      st.visiting_order =
        expectedVisitingOrder (inp.raw_wav.map (fun s => numFrames s.length fl ov))
          fpe := by
  obtain ⟨hsp, hsw, hsid, hinfo, hne⟩ := hwf
  obtain ⟨out, hout, hvo⟩ := coreLoop_ok fl ov fpe inp hc hinfo inp.raw_wav 0
    (by omega) (by omega) (by omega) hne
  have hck : checkWhichSet ws = .ok () := by rw [checkWhichSet, if_pos hws]
  refine ⟨⟨fl, ov, fpe, inp.speaker_info_list, inp.speaker_id_list,
      inp.speaker_features_list, inp.words_list, inp.phonemes_list, out.raw_wav,
      inp.phonemes, inp.sequences_to_phonemes, inp.words, inp.sequences_to_words,
      inp.speaker_id, out.visiting_order⟩, ?_, ?_⟩
  · simp only [coreTransform, hck, hout, bind, Except.bind, pure, Except.pure]
  · show out.visiting_order = _
    rw [hvo, expectedVisitingOrder]

/-- C1 counterexample: a single empty sequence has frame count
`0 < frames_per_example + 1`, yet construction does not silently
contribute zero references — it fails with an `IndexError` raised by
`end_phoneme[-1] = 1` (line 128) on the empty boundary array. -/
theorem trainingWindowIndex_counterexample :
    coreTransform "train" 2 1 1 (17, 2, 946)
        ⟨[[0]], [], [], [], [], [[]], [], [(0, 0)], [], [(0, 0)], [0]⟩ =
      .error "IndexError: index -1 is out of bounds" := rfl

/-- Witness for C1 (amended): two sequences of lengths 3 and 1 with
`frame_length = 2`, `overlap = 1`, `frames_per_example = 1`: frame counts
are 2 and 0, and the emitted list is `[(0, 0)]`. -/
theorem trainingWindowIndex_correct_witness :
    ∃ st, coreTransform "train" 2 1 1 (17, 2, 946)
        ⟨[[0]], [], [], [], [], [[0, 0, 0], [0]], [], [(0, 0), (0, 0)], [],
          [(0, 0), (0, 0)], [0, 0]⟩ = .ok st ∧
      st.visiting_order =
        expectedVisitingOrder
          (([[0, 0, 0], [0]] : List (List Int)).map (fun s => numFrames s.length 2 1))
          1 :=
  trainingWindowIndex_correct "train" 2 1 1 (17, 2, 946)
    ⟨[[0]], [], [], [], [], [[0, 0, 0], [0]], [], [(0, 0), (0, 0)], [],
      [(0, 0), (0, 0)], [0, 0]⟩
    (by decide) ⟨by decide, by decide, by decide⟩
    ⟨by decide, by decide, by decide, by decide, by decide⟩

/-- C4 (amended): an invalid frame configuration is not detected before
per-sequence processing; it surfaces as a `segment_axis` error while the
first sequence is being processed, so construction fails only when at
least one (nonempty) sequence exists. -/
theorem configError_raised_in_loop (ws : String) (fl ov : Int) (fpe : Nat)
    (rng : Nat × Nat × Nat) (inp : TimitInputs)
    (hws : ws ∈ whichSetValues)
    (hbad : fl ≤ 0 ∨ ov < 0 ∨ fl ≤ ov)
    (hne0 : inp.raw_wav ≠ [])
    (hne : ∀ sq ∈ inp.raw_wav, sq ≠ [])
    (hsp : 0 < inp.sequences_to_phonemes.length)
    (hsw : 0 < inp.sequences_to_words.length)
    (hsid : 0 < inp.speaker_id.length)
    (hinfo : ∀ s ∈ inp.speaker_id, s < inp.speaker_info_list.length) :
    coreTransform ws fl ov fpe rng inp =
      .error "segment_axis: invalid frame length and overlap configuration" := by
  have hck : checkWhichSet ws = .ok () := by rw [checkWhichSet, if_pos hws]
  cases hw : inp.raw_wav with
  | nil => exact absurd hw hne0
  | cons sq rest =>
    have hsqne : sq ≠ [] := hne sq (by rw [hw]; exact List.mem_cons_self sq rest)
    have herr := processSequence_config_err fl ov inp 0 sq hbad hsp hsw hsid hinfo hsqne
    simp only [coreTransform, hck, hw, coreLoop, herr, bind, Except.bind]

/-- C4 counterexample: with `frame_length = 0` (an invalid configuration)
and no sequences, construction raises no configuration error at all: the
core completes, and the constructor fails only later, at the data-specs
stage, with a `NameError` that has nothing to do with the frame
configuration. -/
theorem configError_counterexample :
    isOkB (coreTransform "train" 0 0 1 (17, 2, 946)
      ⟨[], [], [], [], [], [], [], [], [], [], []⟩) = true ∧
    TIMIT_init "train" 0 0 1 (17, 2, 946)
        ⟨[], [], [], [], [], [], [], [], [], [], []⟩ =
      .error "NameError: name \x27VectorSpace\x27 is not defined" :=
  ⟨rfl, rfl⟩

/-- Witness for C4 (amended): one nonempty sequence and `frame_length = 0`:
the configuration error is raised from inside the per-sequence loop. -/
theorem configError_raised_in_loop_witness :
    coreTransform "train" 0 0 1 (17, 2, 946)
        ⟨[[0]], [], [], [], [], [[0, 0]], [], [(0, 0)], [], [(0, 0)], [0]⟩ =
      .error "segment_axis: invalid frame length and overlap configuration" :=
  configError_raised_in_loop "train" 0 0 1 (17, 2, 946)
    ⟨[[0]], [], [], [], [], [[0, 0]], [], [(0, 0)], [], [(0, 0)], [0]⟩
    (by decide) (by decide) (by decide) (by decide) (by decide) (by decide)
    (by decide) (by decide)

/-- C5 counterexample: for one 100-sample sequence with one phoneme
annotation `(10, 50, 3)`, `frame_length = 20`, `overlap = 10`,
`frames_per_example = 1`, the index builder contributes 8 references with
offsets 0 through 7 — not 9 references with offsets 0 through 8 as
claimed: line 178 iterates `xrange(0, 9 - 1)`. -/
theorem endToEndScenario_counterexample :
    (coreTransform "train" 20 10 1 (17, 2, 946)
        ⟨[[0]], [], [], [], [], [List.replicate 100 0], [(10, 50, 3)], [(0, 1)], [],
          [(0, 0)], [0]⟩).map (fun st => st.visiting_order) =
      .ok [(0, 0), (0, 1), (0, 2), (0, 3), (0, 4), (0, 5), (0, 6), (0, 7)] ∧
    (coreTransform "train" 20 10 1 (17, 2, 946)
        ⟨[[0]], [], [], [], [], [List.replicate 100 0], [(10, 50, 3)], [(0, 1)], [],
          [(0, 0)], [0]⟩).map (fun st => st.visiting_order.length) = .ok 8 ∧
    (coreTransform "train" 20 10 1 (17, 2, 946)
        ⟨[[0]], [], [], [], [], [List.replicate 100 0], [(10, 50, 3)], [(0, 1)], [],
          [(0, 0)], [0]⟩).map (fun st => st.visiting_order) ≠
      .ok [(0, 0), (0, 1), (0, 2), (0, 3), (0, 4), (0, 5), (0, 6), (0, 7), (0, 8)] := by
  refine ⟨rfl, rfl, ?_⟩
  intro h
  have h8 : (coreTransform "train" 20 10 1 (17, 2, 946)
      ⟨[[0]], [], [], [], [], [List.replicate 100 0], [(10, 50, 3)], [(0, 1)], [],
        [(0, 0)], [0]⟩).map (fun st => st.visiting_order) =
      Except.ok [((0 : Nat), (0 : Nat)), (0, 1), (0, 2), (0, 3), (0, 4), (0, 5),
        (0, 6), (0, 7)] := rfl
  rw [h8] at h
  have h9 := Except.ok.inj h
  exact absurd h9 (by decide)

/-- C5 (amended): in the same scenario the frame count is 9, and the index
builder contributes exactly 8 references for that sequence, with offsets 0
through 7 (`[0, N - frames_per_example)` with `N = 9`,
`frames_per_example = 1`). -/
theorem endToEndScenario_amended :
    (segment_axis (List.replicate 100 (0 : Int)) 20 10).map List.length = .ok 9 ∧
    numFrames 100 20 10 = 9 ∧
    (coreTransform "train" 20 10 1 (17, 2, 946)
        ⟨[[0]], [], [], [], [], [List.replicate 100 0], [(10, 50, 3)], [(0, 1)], [],
          [(0, 0)], [0]⟩).map (fun st => st.visiting_order) =
      .ok [(0, 0), (0, 1), (0, 2), (0, 3), (0, 4), (0, 5), (0, 6), (0, 7)] :=
  ⟨rfl, rfl, rfl⟩

/-- C7: the per-sequence loop computes the majority-voted phoneme and word
frame arrays (here `[5, 5]` and `[0, 0]` for a two-sample sequence with
one phoneme annotation `(0, 2, 4)` and `frame_length = 1`), but the loop
discards them: the `segmented_phonemes` and `segmented_words` accumulator
lists created at lines 94-95 are still empty after processing the
sequence, and no attribute of the constructed object receives the
aggregated label arrays — only the segmented raw sequence and
`visiting_order` survive. -/
theorem aggregatedLabels_discarded :
    (processSequence 1 0 ⟨[[0]], [], [], [], [], [[0, 1]], [(0, 2, 4)], [(0, 1)], [],
        [(0, 0)], [0]⟩ 0 [0, 1]).map (fun r => r.segmented_phonemes_agg) =
      .ok [5, 5] ∧
    (processSequence 1 0 ⟨[[0]], [], [], [], [], [[0, 1]], [(0, 2, 4)], [(0, 1)], [],
        [(0, 0)], [0]⟩ 0 [0, 1]).map (fun r => r.segmented_words_agg) =
      .ok [0, 0] ∧
    (coreLoop 1 0 1 ⟨[[0]], [], [], [], [], [[0, 1]], [(0, 2, 4)], [(0, 1)], [],
        [(0, 0)], [0]⟩ 0 [[0, 1]]).map
      (fun o => (o.segmented_phonemes, o.segmented_words,
        o.segmented_sequences.length, o.visiting_order)) =
      .ok ([], [], 1, [(0, 0)]) :=
  ⟨rfl, rfl, rfl⟩

/-- C8: any `which_set` outside `{"train", "valid", "test"}` makes
construction fail with a `ValueError` whose message starts with the
invalid value itself (lines 47-49); for the three valid values the check
passes. -/
theorem whichSetValidation (ws : String) (fl ov : Int) (fpe : Nat)
    (rng : Nat × Nat × Nat) (inp : TimitInputs) :
    (ws ∉ whichSetValues →
      TIMIT_init ws fl ov fpe rng inp =
        .error (ws ++ " is not a recognized value. " ++
          "Valid values are [\x27train\x27, \x27valid\x27, \x27test\x27].")) ∧
    (ws ∈ whichSetValues → checkWhichSet ws = .ok ()) := by
  constructor
  · intro h
    have hck : checkWhichSet ws =
        .error (ws ++ " is not a recognized value. " ++
          "Valid values are [\x27train\x27, \x27valid\x27, \x27test\x27].") := by
      rw [checkWhichSet, if_neg h]
    simp only [TIMIT_init, coreTransform, hck, bind, Except.bind]
  · intro h
    rw [checkWhichSet, if_pos h]

/-- Witness for C8 at the invalid value `"foo"` and the valid value
`"train"`. -/
theorem whichSetValidation_witness :
    ("foo" ∉ whichSetValues ∧
      TIMIT_init "foo" 1 0 1 (17, 2, 946) ⟨[], [], [], [], [], [], [], [], [], [], []⟩ =
        .error ("foo" ++ " is not a recognized value. " ++
          "Valid values are [\x27train\x27, \x27valid\x27, \x27test\x27].")) ∧
    ("train" ∈ whichSetValues ∧ checkWhichSet "train" = .ok ()) :=
  ⟨⟨by decide, (whichSetValidation "foo" 1 0 1 (17, 2, 946)
      ⟨[], [], [], [], [], [], [], [], [], [], []⟩).1 (by decide)⟩,
   ⟨by decide, (whichSetValidation "train" 1 0 1 (17, 2, 946)
      ⟨[], [], [], [], [], [], [], [], [], [], []⟩).2 (by decide)⟩⟩

/-- C9: the constructor never reads its `rng` argument, so any two
constructions differing only in `rng` produce identical results — both
for the core transform (segmented sequences, frame-aggregated values,
training-window reference list) and for the whole constructor. -/
theorem rngNotConsumed (ws : String) (fl ov : Int) (fpe : Nat)
    (rng1 rng2 : Nat × Nat × Nat) (inp : TimitInputs) :
    coreTransform ws fl ov fpe rng1 inp = coreTransform ws fl ov fpe rng2 inp ∧
    TIMIT_init ws fl ov fpe rng1 inp = TIMIT_init ws fl ov fpe rng2 inp :=
  ⟨rfl, rfl⟩

/-- C10: `VectorSpace` and `CompositeSpace` are not bound at module level
of `timit.py`, so every run that passes the per-sequence loop fails at the
data-specs stage with a `NameError`; `data_specs` is never assigned and no
construction fully succeeds. -/
theorem dataSpecsNeverAssigned (ws : String) (fl ov : Int) (fpe : Nat)
    (rng : Nat × Nat × Nat) (inp : TimitInputs) (st : CoreState)
    (hcore : coreTransform ws fl ov fpe rng inp = .ok st) :
    "VectorSpace" ∉ moduleBindings ∧ "CompositeSpace" ∉ moduleBindings ∧
    TIMIT_init ws fl ov fpe rng inp =
      .error "NameError: name \x27VectorSpace\x27 is not defined" := by
  refine ⟨by decide, by decide, ?_⟩
  have hds : dataSpecsStage fl fpe =
      .error "NameError: name \x27VectorSpace\x27 is not defined" := rfl
  simp only [TIMIT_init, hcore, hds, bind, Except.bind]

/-- Witness for C10: a run with no sequences passes the per-sequence loop
and fails at the data-specs stage. -/
theorem dataSpecsNeverAssigned_witness :
    "VectorSpace" ∉ moduleBindings ∧ "CompositeSpace" ∉ moduleBindings ∧
    TIMIT_init "train" 1 0 1 (17, 2, 946)
        ⟨[], [], [], [], [], [], [], [], [], [], []⟩ =
      .error "NameError: name \x27VectorSpace\x27 is not defined" :=
  dataSpecsNeverAssigned "train" 1 0 1 (17, 2, 946)
    ⟨[], [], [], [], [], [], [], [], [], [], []⟩
    ⟨1, 0, 1, [], [], [], [], [], [], [], [], [], [], [], []⟩ rfl

/-- Witness for C3 at the concrete label array `[1, 1, 2]`. -/
theorem boundaryExtraction_correct_witness :
    1 ≤ ([1, 1, 2] : List Nat).length ∧
    (∃ b, setLastOne (endMarkers ([1, 1, 2] : List Nat)) = Except.ok b ∧
      b.length = ([1, 1, 2] : List Nat).length ∧
      (∀ j, j + 1 < ([1, 1, 2] : List Nat).length →
        b.getD j 0 = if ([1, 1, 2] : List Nat).getD j 0 ≠ ([1, 1, 2] : List Nat).getD (j + 1) 0
          then 1 else 0) ∧
      b.getD (([1, 1, 2] : List Nat).length - 1) 0 = 1) :=
  ⟨by decide, boundaryExtraction_correct [1, 1, 2] (by decide)⟩

end Timit
